import Mathlib

/-!
# openclaw-board-installer: a shallow embedding

This file embeds the behaviour of the `openclaw-board-installer` CLI
(`src/cli.ts`, `src/installer.ts`, `src/manage.ts`) in Lean 4 and proves
the testable properties of its specification.

Modelling conventions:
* The filesystem is a finite association list from paths to a `FileState`
  (absent, existing-but-unreadable, or readable content).  `existsSync`
  and `readFileSync` are read off this map.
* External commands (git, npm, brew, prisma, launchctl, rm, createdb,
  curl probes, spawned processes) are modelled as entries of an effect
  trace `Eff`; whether a command succeeds is a field of an environment
  record.  A JS exception escaping to `cli.ts`'s `.catch` handler maps to
  exit code 1, in accordance with the dispatch code.
* Interactive prompts are modelled by a `Script` of user answers; `none`
  models a cancelled prompt (`p.isCancel`).  `@clack/prompts` re-asks a
  text prompt until its validator passes, so a `some` answer of a text
  prompt stands for the finally accepted value.
-/

namespace OpenclawBoard

/-- State of a single path on disk: `absent` (existsSync false),
`unreadable` (exists but readFileSync throws, e.g. a directory or a
permission error), or `content s` (a readable file). -/
inductive FileState where
  | absent
  | unreadable
  | content (s : String)
deriving DecidableEq, Repr

/-- The filesystem: a finite map from paths to states; unlisted paths are
absent. -/
abbrev Fs := List (String × FileState)

/-- Look up the state of a path; unlisted paths are absent. -/
def Fs.stat (fs : Fs) (p : String) : FileState :=
  match fs.lookup p with
  | some st => st
  | none => .absent

/-- `existsSync p`: the path is present in any form. -/
def Fs.existsSync (fs : Fs) (p : String) : Bool :=
  match fs.stat p with
  | .absent => false
  | _ => true

/-- `readFileSync p` as a total function: `some` content on success,
`none` when the read throws (path absent or unreadable). -/
def Fs.readFile (fs : Fs) (p : String) : Option String :=
  match fs.stat p with
  | .content s => some s
  | _ => none

/-- `path.join` of two segments. -/
def joinPath (a b : String) : String := a ++ "/" ++ b

/-- `INSTALL_DIR = join(homedir(), 'openclaw-board')` (manage.ts line 7,
`DEFAULT_INSTALL_DIR` in installer.ts line 10). -/
def installDirPath (home : String) : String := joinPath home "openclaw-board"

/-- The configuration file `join(INSTALL_DIR, '.env')`. -/
def envPath (home : String) : String := joinPath (installDirPath home) ".env"

/-- `PLIST_PATH = join(homedir(), 'Library', 'LaunchAgents',
'com.openclaw.board.plist')`. -/
def plistPath (home : String) : String :=
  joinPath (joinPath (joinPath home "Library") "LaunchAgents") "com.openclaw.board.plist"

/-- `join(homedir(), 'Library', 'LaunchAgents')` (installer.ts line 203). -/
def launchAgentsDir (home : String) : String :=
  joinPath (joinPath home "Library") "LaunchAgents"

/-! ## The PORT regex and JS number parsing -/

/-- Maximal leading run of ASCII digits (the `\d+` part of the regex and
the digit scan of `parseInt`). -/
def takeDigits : List Char → List Char
  | [] => []
  | c :: cs => if c.isDigit then c :: takeDigits cs else []

/-- Numeric value of a digit string. -/
def digitsToNat (l : List Char) : Nat :=
  l.foldl (fun a c => a * 10 + (c.toNat - 48)) 0

/-- Try the regex `/PORT=(\d+)/` anchored at the head of the list:
returns the captured digit run when the head spells `PORT=` followed by
at least one digit. -/
def portMatchAt (l : List Char) : Option (List Char) :=
  match l with
  | 'P' :: 'O' :: 'R' :: 'T' :: '=' :: rest =>
    match takeDigits rest with
    | [] => none
    | ds => some ds
  | _ => none

/-- `content.match(/PORT=(\d+)/)`: the capture of the leftmost match, if
any — the regex is unanchored, so `PORT=` may start anywhere, including
inside a longer key such as `SUPPORT=`. -/
def findPortMatch : List Char → Option (List Char)
  | [] => none
  | c :: cs =>
    match portMatchAt (c :: cs) with
    | some ds => some ds
    | none => findPortMatch cs

/-- `DEFAULT_PORT` (installer.ts line 9, literal 3000 in manage.ts). -/
def DEFAULT_PORT : Nat := 3000

/-- `getPort()` (manage.ts lines 11-20), identical to the inline port
parse of `detectExistingInstall` (installer.ts lines 57-67): read the
`.env` file, take the first `PORT=(\d+)` capture, default 3000 when the
read throws or there is no match. -/
def getPort (home : String) (fs : Fs) : Nat :=
  match fs.readFile (envPath home) with
  | none => DEFAULT_PORT
  | some content =>
    match findPortMatch content.data with
    | some ds => digitsToNat ds
    | none => DEFAULT_PORT

/-- `isInstalled()` (manage.ts lines 22-24). -/
def isInstalled (home : String) (fs : Fs) : Bool :=
  fs.existsSync (installDirPath home) && fs.existsSync (envPath home)

/-- `hasLaunchAgent()` (manage.ts lines 26-28). -/
def hasLaunchAgent (home : String) (fs : Fs) : Bool :=
  fs.existsSync (plistPath home)

/-- The record returned by `detectExistingInstall` (installer.ts
lines 18-22). -/
structure ExistingInstall where
  installDir : String
  port : Nat
  hasLaunchAgent : Bool
deriving DecidableEq, Repr

/-- `detectExistingInstall()` (installer.ts lines 48-74): `null` unless
both the install directory and its `.env` exist; otherwise the port is
parsed exactly as in `getPort` (the `try`/`catch` around the read maps to
`Fs.readFile` returning `none`). -/
def detectExistingInstall (home : String) (fs : Fs) : Option ExistingInstall :=
  if fs.existsSync (installDirPath home) && fs.existsSync (envPath home) then
    some { installDir := installDirPath home
           port := getPort home fs
           hasLaunchAgent := fs.existsSync (plistPath home) }
  else
    none

/-! ## JS `parseInt(value, 10)` and the prompt validators -/

/-- Skip the leading whitespace that `parseInt` ignores. -/
def skipWs : List Char → List Char
  | [] => []
  | c :: cs => if c = ' ' ∨ c = '\t' ∨ c = '\n' ∨ c = '\r' then skipWs cs else c :: cs

/-- `parseInt(s, 10)`: optional sign then a maximal digit run; `none`
models `NaN` (no digits to parse). -/
def parseIntJS (s : String) : Option Int :=
  match skipWs s.data with
  | '-' :: rest =>
    match takeDigits rest with
    | [] => none
    | ds => some (-(digitsToNat ds : Int))
  | '+' :: rest =>
    match takeDigits rest with
    | [] => none
    | ds => some (digitsToNat ds : Int)
  | l =>
    match takeDigits l with
    | [] => none
    | ds => some (digitsToNat ds : Int)

/-- The port prompt's `validate` (installer.ts lines 380-386): `some`
error message on rejection, `none` on acceptance. -/
def portValidate (value : String) : Option String :=
  match parseIntJS value with
  | none => some "Please enter a valid port (1-65535)"
  | some num =>
    if num < 1 ∨ num > 65535 then some "Please enter a valid port (1-65535)"
    else none

/-- The installation-directory prompt's `validate` (installer.ts
lines 365-369): empty input and pre-existing paths are rejected. -/
def installDirValidate (fs : Fs) (value : String) : Option String :=
  if value = "" then some "Directory is required"
  else if fs.existsSync value then some "Directory already exists"
  else none

/-! ## Effects and messages -/

/-- The side effects performed through external commands and file
writes.  Read-only probes (existsSync, readFileSync, `psql -lqt`,
`command -v`, curl liveness checks, `tail`) are not effects. -/
inductive Eff where
  | rmRf (dir : String)
  | brewInstallPg
  | brewStartPg
  | gitClone (dir : String)
  | gitPull (dir : String)
  | npmInstall (dir : String)
  | prismaGenerate (dir : String)
  | prismaDbPush (dir : String)
  | createDb (privileged : Bool)
  | writeFile (path : String) (content : String)
  | mkdirp (path : String)
  | launchctlUnload
  | launchctlLoad
  | launchctlStart
  | launchctlStop
  | launchctlKickstart
  | spawnNpmStart (dir : String)
  | pkill
  | openUrl (url : String)
deriving DecidableEq, Repr

/-- The user-visible messages the claims speak about. -/
inductive Msg where
  | restartHint
  | usage
  | notInstalled
  | cancelled
deriving DecidableEq, Repr

/-- `process.platform` as far as the code branches on it. -/
inductive Platform where
  | darwin
  | linux
  | other
deriving DecidableEq, Repr

/-- Effects that write the service-registration file or talk to the
service manager. -/
def touchesService (home : String) : Eff → Bool
  | .launchctlUnload => true
  | .launchctlLoad => true
  | .launchctlStart => true
  | .launchctlStop => true
  | .launchctlKickstart => true
  | .writeFile p _ => p = plistPath home
  | _ => false

/-- Effects that spawn the board process (directly or through the
service manager). -/
def isSpawn : Eff → Bool
  | .spawnNpmStart _ => true
  | .launchctlStart => true
  | .launchctlKickstart => true
  | _ => false

/-! ## Database provisioning (`setupDatabase`, installer.ts 116-137) -/

/-- The hard-coded database name. -/
def dbName : String := "openclaw_board"

/-- State of the PostgreSQL cluster as `setupDatabase` can observe or
change it: which databases exist (`psql -lqt | ... grep -qw`), whether
plain `createdb` succeeds, and whether the superuser fallback
`psql postgres -c "CREATE DATABASE ..."` succeeds. -/
structure DbState where
  dbs : List String
  createdbOk : Bool
  superOk : Bool
deriving DecidableEq, Repr

/-- `setupDatabase` (installer.ts lines 116-137): check for the database
by name; when absent, create it with `createdb`, falling back to the
privileged `psql postgres -c "CREATE DATABASE"` when that throws; when
both creation paths throw, the exception propagates (`none`).  Returns
the new cluster state and the effect trace. -/
def setupDatabase (st : DbState) : Option (DbState × List Eff) :=
  if dbName ∈ st.dbs then some (st, [])
  else if st.createdbOk then some ({ st with dbs := dbName :: st.dbs }, [.createDb false])
  else if st.superOk then some ({ st with dbs := dbName :: st.dbs }, [.createDb true])
  else none

/-- The connection string returned by `setupDatabase`
(installer.ts line 136). -/
def dbUrl (user : String) : String :=
  "postgresql://" ++ user ++ "@localhost:5432/" ++ dbName ++ "?schema=public"

/-- Number of database creations in a trace. -/
def countCreates (effs : List Eff) : Nat :=
  effs.countP fun e =>
    match e with
    | .createDb _ => true
    | _ => false

/-! ## Management commands (`runManage`, manage.ts) -/

/-- Environment of a management-command run: the platform, whether a
started board process answers the liveness probe after the fixed wait,
and the outcomes of the external commands of `update`. -/
structure MEnv where
  platform : Platform
  startBrings : Bool
  gitPullOk : Bool
  npmInstallOk : Bool
  prismaGenOk : Bool
  prismaPushOk : Bool
deriving DecidableEq, Repr

/-- Observable state a management command runs against: the filesystem
and what the HTTP liveness probe (`isRunning`, manage.ts 30-38)
reports. -/
structure MState where
  fs : Fs
  running : Bool
deriving DecidableEq, Repr

/-- Result of a management command: process exit code (0 when `runManage`
returns normally, 1 on `process.exit(1)` or an exception reaching
`cli.ts`'s catch), effect trace, claim-relevant messages, and the
resulting observable state. -/
structure MResult where
  exit : Nat
  effs : List Eff
  msgs : List Msg
  state : MState
deriving DecidableEq, Repr

/-- `case 'start'` (manage.ts lines 110-142): when the liveness probe
reports running, report success and return; otherwise start via
`launchctl start` (launch agent present on macOS) or a detached
`spawn('npm', ['start'])`, wait, and re-probe.  A process brought up by
the start answers the probe afterwards exactly when `env.startBrings`. -/
def runStart (home : String) (env : MEnv) (st : MState) : MResult :=
  if st.running then ⟨0, [], [], st⟩
  else
    let eff :=
      if hasLaunchAgent home st.fs && env.platform = Platform.darwin then Eff.launchctlStart
      else Eff.spawnNpmStart (installDirPath home)
    ⟨0, [eff], [], { st with running := env.startBrings }⟩

/-- `case 'stop'` (manage.ts lines 144-165): when the probe reports not
running, report and return; otherwise stop via `launchctl stop` or
`pkill` (whose failure is swallowed). -/
def runStop (home : String) (env : MEnv) (st : MState) : MResult :=
  if !st.running then ⟨0, [], [], st⟩
  else
    let eff :=
      if hasLaunchAgent home st.fs && env.platform = Platform.darwin then Eff.launchctlStop
      else Eff.pkill
    ⟨0, [eff], [], { st with running := false }⟩

/-- `case 'restart'` (manage.ts lines 167-197): `launchctl kickstart -k`
on macOS with a launch agent, else `pkill` followed by a fresh spawn;
then wait and re-probe. -/
def runRestart (home : String) (env : MEnv) (st : MState) : MResult :=
  if hasLaunchAgent home st.fs && env.platform = Platform.darwin then
    ⟨0, [.launchctlKickstart], [], { st with running := env.startBrings }⟩
  else
    ⟨0, [.pkill, .spawnNpmStart (installDirPath home)], [], { st with running := env.startBrings }⟩

/-- `case 'status'` (manage.ts lines 90-108): read-only probes only. -/
def runStatus (st : MState) : MResult := ⟨0, [], [], st⟩

/-- `case 'logs'` (manage.ts lines 199-215): read-only (`tail`). -/
def runLogs (st : MState) : MResult := ⟨0, [], [], st⟩

/-- `case 'open'` (manage.ts lines 217-232): start first when the probe
reports not running (the code calls `runManage('start')`, which lands in
`case 'start'` since the installation check already passed), then launch
the browser (`open` on macOS, `xdg-open` on Linux, a printed URL
elsewhere). -/
def runOpen (home : String) (env : MEnv) (st : MState) : MResult :=
  let r := if !st.running then runStart home env st else ⟨0, [], [], st⟩
  let url := "http://localhost:" ++ toString (getPort home st.fs)
  let opens :=
    if env.platform = Platform.darwin ∨ env.platform = Platform.linux then [Eff.openUrl url]
    else []
  ⟨0, r.effs ++ opens, r.msgs, r.state⟩

/-- `case 'update'` (manage.ts lines 234-249): `git pull`, `npm install`,
`prisma generate`, `prisma db push` — each `execSync` throws on failure,
aborting with exit 1 — then, when the probe reports running, a restart. -/
def runUpdateCmd (home : String) (env : MEnv) (st : MState) : MResult :=
  let d := installDirPath home
  if !env.gitPullOk then ⟨1, [.gitPull d], [], st⟩
  else if !env.npmInstallOk then ⟨1, [.gitPull d, .npmInstall d], [], st⟩
  else if !env.prismaGenOk then ⟨1, [.gitPull d, .npmInstall d, .prismaGenerate d], [], st⟩
  else if !env.prismaPushOk then
    ⟨1, [.gitPull d, .npmInstall d, .prismaGenerate d, .prismaDbPush d], [], st⟩
  else
    let base := [Eff.gitPull d, .npmInstall d, .prismaGenerate d, .prismaDbPush d]
    if st.running then
      let r := runRestart home env st
      ⟨r.exit, base ++ r.effs, r.msgs, r.state⟩
    else ⟨0, base, [], st⟩

/-- The tokens `printHelp` answers directly (manage.ts line 75). -/
def helpTokens : List String := ["help", "--help", "-h"]

/-- The recognised management commands of the `switch`. -/
def manageCmds : List String :=
  ["status", "start", "stop", "restart", "logs", "open", "update"]

/-- `runManage` (manage.ts lines 74-256): help tokens print usage and
return; any other command first requires an installation (else an error
and `process.exit(1)`); then the `switch` dispatches, its `default`
printing the unknown-command error plus usage and exiting 1. -/
def runManage (home : String) (env : MEnv) (st : MState) (command : String) : MResult :=
  if command ∈ helpTokens then ⟨0, [], [.usage], st⟩
  else if !isInstalled home st.fs then ⟨1, [], [.notInstalled], st⟩
  else if command = "status" then runStatus st
  else if command = "start" then runStart home env st
  else if command = "stop" then runStop home env st
  else if command = "restart" then runRestart home env st
  else if command = "logs" then runLogs st
  else if command = "open" then runOpen home env st
  else if command = "update" then runUpdateCmd home env st
  else ⟨1, [], [.usage], st⟩

/-- Where `cli.ts` sends control. -/
inductive Dispatch where
  | installer
  | manage (command : String)
deriving DecidableEq, Repr

/-- The dispatch of `cli.ts` (lines 6-18): a missing or falsy
`process.argv[2]`, or the token `install`, runs the installer; any other
token goes to `runManage`. -/
def cliDispatch (arg : Option String) : Dispatch :=
  match arg with
  | none => .installer
  | some c => if c = "" ∨ c = "install" then .installer else .manage c

/-! ## The installer (`runInstaller`, installer.ts 253-458) -/

/-- The choice offered on an existing installation
(installer.ts lines 268-275). -/
inductive Action where
  | update
  | fresh
  | cancel
deriving DecidableEq, Repr

/-- The user's answers, in prompt order.  `none` is a cancelled prompt
(`p.isCancel`); for the text prompts the `some` value is the finally
accepted input (the prompt re-asks while its validator rejects). -/
structure Script where
  action : Option Action
  confirmDelete : Option Bool
  installPg : Option Bool
  installDir : Option String
  portInput : Option String
  autoStart : Option Bool
  proceed : Option Bool
deriving DecidableEq, Repr

/-- Environment of an installer run: platform, `command -v` probes,
cluster state for `setupDatabase`, and the outcomes of the external
commands. -/
structure IEnv where
  platform : Platform
  npmExists : Bool
  openclawExists : Bool
  brewExists : Bool
  psqlExists : Bool
  db : DbState
  brewInstallOk : Bool
  brewStartOk : Bool
  cloneOk : Bool
  npmInstallOk : Bool
  gitPullOk : Bool
  prismaGenOk : Bool
  prismaPushOk : Bool
  launchctlLoadOk : Bool
  user : String
  npmPath : String
deriving DecidableEq, Repr

/-- How an installer run ended. -/
inductive Outcome where
  | completed
  | cancelled
  | prereqFailure
  | stepFailure (step : String)
deriving DecidableEq, Repr

/-- Result of an installer run: the process exit code (explicit
`process.exit`, or 1 when a thrown error reaches `cli.ts`'s catch, or 0
on normal completion), the effect trace, claim-relevant messages, and
the outcome. -/
structure RunResult where
  exit : Nat
  effs : List Eff
  msgs : List Msg
  outcome : Outcome
deriving DecidableEq, Repr

/-- `runUpdate` (installer.ts lines 139-171): `git pull origin main`,
`npm install`, `prisma generate`, `prisma db push`, all inside the
existing directory; a failing step rethrows (exit 1 via `cli.ts`).  On
success the restart hint is printed exactly when a launch agent is
registered, and the caller (installer.ts line 284) exits 0. -/
def runUpdate (env : IEnv) (ex : ExistingInstall) : RunResult :=
  let d := ex.installDir
  if !env.gitPullOk then ⟨1, [.gitPull d], [], .stepFailure "git pull"⟩
  else if !env.npmInstallOk then ⟨1, [.gitPull d, .npmInstall d], [], .stepFailure "npm install"⟩
  else if !env.prismaGenOk then
    ⟨1, [.gitPull d, .npmInstall d, .prismaGenerate d], [], .stepFailure "prisma generate"⟩
  else if !env.prismaPushOk then
    ⟨1, [.gitPull d, .npmInstall d, .prismaGenerate d, .prismaDbPush d], [],
      .stepFailure "prisma db push"⟩
  else
    ⟨0, [.gitPull d, .npmInstall d, .prismaGenerate d, .prismaDbPush d],
      if ex.hasLaunchAgent then [.restartHint] else [], .completed⟩

/-- `checkPrerequisites` (installer.ts lines 76-95): every missing tool
is collected before reporting. -/
def missingPrereqs (env : IEnv) : List String :=
  (if !env.npmExists then ["npm (Node.js)"] else []) ++
  (if !env.openclawExists then ["openclaw"] else []) ++
  (if env.platform = Platform.darwin && !env.brewExists then ["homebrew"] else [])

/-- The PostgreSQL step of `runInstaller` (installer.ts lines 334-359)
with `installPostgres` (lines 101-114) inlined: when `psql` is absent the
user is asked; declining or cancelling exits 0; on a non-macOS platform
`installPostgres` throws (exit 1); otherwise `brew install` and
`brew services start` run, each aborting on failure.  `.error` carries an
early exit, `.ok` the effects to prepend to the rest of the run. -/
def pgStep (env : IEnv) (s : Script) : Except RunResult (List Eff) :=
  if env.psqlExists then .ok []
  else
    match s.installPg with
    | none => .error ⟨0, [], [.cancelled], .cancelled⟩
    | some false => .error ⟨0, [], [.cancelled], .cancelled⟩
    | some true =>
      if env.platform ≠ Platform.darwin then
        .error ⟨1, [], [], .stepFailure "postgres platform"⟩
      else if !env.brewInstallOk then
        .error ⟨1, [.brewInstallPg], [], .stepFailure "brew install postgresql"⟩
      else if !env.brewStartOk then
        .error ⟨1, [.brewInstallPg, .brewStartPg], [], .stepFailure "brew services start"⟩
      else .ok [.brewInstallPg, .brewStartPg]

/-- `InstallerConfig` (installer.ts lines 12-16). -/
structure InstallerConfig where
  installDir : String
  port : Nat
  autoStart : Bool
deriving DecidableEq, Repr

/-- The `.env` content written on fresh install
(installer.ts line 187). -/
def envFileContent (user : String) (port : Nat) : String :=
  "DATABASE_URL=\x22" ++ dbUrl user ++ "\x22\nPORT=" ++ toString port ++ "\n"

/-- The launch-agent plist written by `setupLaunchAgent`
(installer.ts lines 210-239), with the resolved npm path, working
directory, port and log paths substituted. -/
def plistContent (npmPath installDir : String) (port : Nat) : String :=
  "<?xml version=\x221.0\x22 encoding=\x22UTF-8\x22?>\n" ++
  "<!DOCTYPE plist PUBLIC \x22-//Apple//DTD PLIST 1.0//EN\x22 " ++
  "\x22http://www.apple.com/DTDs/PropertyList-1.0.dtd\x22>\n" ++
  "<plist version=\x221.0\x22>\n<dict>\n" ++
  "    <key>Label</key>\n    <string>com.openclaw.board</string>\n" ++
  "    <key>ProgramArguments</key>\n    <array>\n" ++
  "        <string>" ++ npmPath ++ "</string>\n" ++
  "        <string>start</string>\n    </array>\n" ++
  "    <key>WorkingDirectory</key>\n    <string>" ++ installDir ++ "</string>\n" ++
  "    <key>EnvironmentVariables</key>\n    <dict>\n" ++
  "        <key>PATH</key>\n        " ++
  "<string>/usr/local/bin:/usr/bin:/bin:/opt/homebrew/bin</string>\n" ++
  "        <key>PORT</key>\n        <string>" ++ toString port ++ "</string>\n" ++
  "    </dict>\n" ++
  "    <key>RunAtLoad</key>\n    <true/>\n" ++
  "    <key>KeepAlive</key>\n    <true/>\n" ++
  "    <key>StandardOutPath</key>\n    <string>" ++ installDir ++ "/logs/stdout.log</string>\n" ++
  "    <key>StandardErrorPath</key>\n    <string>" ++ installDir ++ "/logs/stderr.log</string>\n" ++
  "</dict>\n</plist>"

/-- `cloneAndSetup` (installer.ts lines 173-194): clone, `npm install`,
`setupDatabase`, write `.env`, `prisma generate`, `prisma db push`; a
failing step throws (exit 1 with the effects performed so far). -/
def cloneAndSetup (env : IEnv) (cfg : InstallerConfig) : Except RunResult (List Eff) :=
  let d := cfg.installDir
  if !env.cloneOk then .error ⟨1, [.gitClone d], [], .stepFailure "git clone"⟩
  else if !env.npmInstallOk then
    .error ⟨1, [.gitClone d, .npmInstall d], [], .stepFailure "npm install"⟩
  else
    match setupDatabase env.db with
    | none => .error ⟨1, [.gitClone d, .npmInstall d], [], .stepFailure "create database"⟩
    | some (_, dbE) =>
      let pre := [Eff.gitClone d, .npmInstall d] ++ dbE ++
        [Eff.writeFile (joinPath d ".env") (envFileContent env.user cfg.port)]
      if !env.prismaGenOk then
        .error ⟨1, pre ++ [.prismaGenerate d], [], .stepFailure "prisma generate"⟩
      else if !env.prismaPushOk then
        .error ⟨1, pre ++ [.prismaGenerate d, .prismaDbPush d], [], .stepFailure "prisma db push"⟩
      else .ok (pre ++ [.prismaGenerate d, .prismaDbPush d])

/-- `setupLaunchAgent` (installer.ts lines 196-251): a warning and no-op
off macOS; otherwise create the LaunchAgents and logs directories, write
the plist, `launchctl unload` (failure swallowed) and `launchctl load`
(failure throws). -/
def setupLaunchAgent (home : String) (env : IEnv) (cfg : InstallerConfig) :
    Except RunResult (List Eff) :=
  if env.platform ≠ Platform.darwin then .ok []
  else
    let base := [Eff.mkdirp (launchAgentsDir home),
                 Eff.mkdirp (joinPath cfg.installDir "logs"),
                 Eff.writeFile (plistPath home) (plistContent env.npmPath cfg.installDir cfg.port),
                 Eff.launchctlUnload]
    if !env.launchctlLoadOk then
      .error ⟨1, base ++ [.launchctlLoad], [], .stepFailure "launchctl load"⟩
    else .ok (base ++ [.launchctlLoad])

/-- The port of the accepted port input (installer.ts line 406):
`parseInt(portInput, 10)`, a positive in-range value once the validator
accepted it. -/
def acceptedPort (portInput : String) : Nat :=
  match parseIntJS portInput with
  | some n => n.toNat
  | none => 0

/-- The no-prior-install flow of `runInstaller` (installer.ts
lines 305-457): prerequisite check (exit 1 listing every missing tool),
PostgreSQL step, the four prompts (cancelling any of them exits 0; a
declined final confirmation exits 0), then `cloneAndSetup` and, when
auto-start was chosen, `setupLaunchAgent`; normal completion exits 0. -/
def freshFlow (home : String) (env : IEnv) (s : Script) : RunResult :=
  if missingPrereqs env ≠ [] then ⟨1, [], [], .prereqFailure⟩
  else
    match pgStep env s with
    | .error r => r
    | .ok pgE =>
      match s.installDir with
      | none => ⟨0, pgE, [.cancelled], .cancelled⟩
      | some dir =>
        match s.portInput with
        | none => ⟨0, pgE, [.cancelled], .cancelled⟩
        | some portStr =>
          match s.autoStart with
          | none => ⟨0, pgE, [.cancelled], .cancelled⟩
          | some auto =>
            match s.proceed with
            | none => ⟨0, pgE, [.cancelled], .cancelled⟩
            | some false => ⟨0, pgE, [.cancelled], .cancelled⟩
            | some true =>
              let cfg : InstallerConfig := ⟨dir, acceptedPort portStr, auto⟩
              match cloneAndSetup env cfg with
              | .error r => { r with effs := pgE ++ r.effs }
              | .ok csE =>
                if cfg.autoStart then
                  match setupLaunchAgent home env cfg with
                  | .error r => { r with effs := pgE ++ csE ++ r.effs }
                  | .ok laE => ⟨0, pgE ++ csE ++ laE, [], .completed⟩
                else ⟨0, pgE ++ csE, [], .completed⟩

/-- `runInstaller` (installer.ts lines 253-458).  With an existing
installation: cancelling the selection (or choosing Cancel) exits 0 with
no effects; Update runs `runUpdate` and exits 0 on success; Fresh
Install asks the destructive confirmation — declining or cancelling
exits 0 with no effects, confirming runs `rm -rf` on the existing
directory and falls through to the fresh flow.  Without one, the fresh
flow runs directly. -/
def runInstaller (home : String) (env : IEnv) (fs : Fs) (s : Script) : RunResult :=
  match detectExistingInstall home fs with
  | none => freshFlow home env s
  | some ex =>
    match s.action with
    | none => ⟨0, [], [.cancelled], .cancelled⟩
    | some .cancel => ⟨0, [], [.cancelled], .cancelled⟩
    | some .update => runUpdate env ex
    | some .fresh =>
      match s.confirmDelete with
      | none => ⟨0, [], [.cancelled], .cancelled⟩
      | some false => ⟨0, [], [.cancelled], .cancelled⟩
      | some true =>
        let r := freshFlow home env s
        { r with effs := .rmRf ex.installDir :: r.effs }

/-! ## Concrete sample states for closed evaluations -/

/-- A sample management environment: macOS, a started process comes up,
every external command of `update` succeeds. -/
def envA : MEnv := ⟨Platform.darwin, true, true, true, true, true⟩

/-- A sample installer environment: macOS, every tool present, every
external command succeeding, an empty cluster with both creation paths
permitted. -/
def envI : IEnv :=
  ⟨Platform.darwin, true, true, true, true, ⟨[], true, true⟩,
    true, true, true, true, true, true, true, true, "u", "/usr/local/bin/npm"⟩

/-- A sample filesystem holding an installation at `/h/openclaw-board`
with `PORT=4000` configured and no launch agent (the directory itself is
`unreadable`: it exists but is not a readable file). -/
def fsI : Fs :=
  [(installDirPath "/h", .unreadable), (envPath "/h", .content "PORT=4000\n")]

/-- The record `detectExistingInstall` derives from `fsI`. -/
def exI : ExistingInstall := ⟨installDirPath "/h", 4000, false⟩

/-- A script that picks Fresh Install, confirms the deletion, and then
cancels at the directory prompt. -/
def cancelAfterRmScript : Script := ⟨some .fresh, some true, none, none, none, none, none⟩

/-- A script that picks Fresh Install and declines the destructive
confirmation. -/
def declineDeleteScript : Script := ⟨some .fresh, some false, none, none, none, none, none⟩

/-- A script that picks Update. -/
def updateScript : Script := ⟨some .update, none, none, none, none, none, none⟩

/-! ## Claims -/

/-- C1: For every prior-installation state of the filesystem, the
environment probe (`detectExistingInstall` / `getPort`) never throws
(both are total functions of the filesystem): when the configuration
file is missing or unreadable, or contains no parsable `PORT` entry, the
probe yields the default port 3000, and when the configuration file or
the install directory is missing, detection degrades to "no
installation" rather than raising. -/
theorem probe_never_raises (home : String) (fs : Fs) :
    (Fs.stat fs (envPath home) = .absent → getPort home fs = 3000) ∧
    (Fs.stat fs (envPath home) = .unreadable → getPort home fs = 3000) ∧
    (∀ c, Fs.stat fs (envPath home) = .content c → findPortMatch c.data = none →
      getPort home fs = 3000) ∧
    (Fs.existsSync fs (envPath home) = false → detectExistingInstall home fs = none) ∧
    (Fs.existsSync fs (installDirPath home) = false → detectExistingInstall home fs = none) := by
  refine ⟨?_, ?_, ?_, ?_, ?_⟩
  · intro h
    simp [getPort, Fs.readFile, h, DEFAULT_PORT]
  · intro h
    simp [getPort, Fs.readFile, h, DEFAULT_PORT]
  · intro c h hm
    simp [getPort, Fs.readFile, h, hm, DEFAULT_PORT]
  · intro h
    simp [detectExistingInstall, h]
  · intro h
    simp [detectExistingInstall, h]

/-- Witness for C1 on the empty filesystem. -/
theorem probe_never_raises_witness :
    getPort "/h" [] = 3000 ∧ detectExistingInstall "/h" [] = none :=
  ⟨(probe_never_raises "/h" []).1 rfl, (probe_never_raises "/h" []).2.2.2.1 rfl⟩

/-- C6: the port prompt's validation accepts "1" and "65535", rejects
"0", "65536", every input parsing to NaN, and every input parsing to a
number outside 1–65535. -/
theorem port_validation_range :
    portValidate "1" = none ∧
    portValidate "65535" = none ∧
    portValidate "0" = some "Please enter a valid port (1-65535)" ∧
    portValidate "65536" = some "Please enter a valid port (1-65535)" ∧
    (∀ s : String, parseIntJS s = none →
      portValidate s = some "Please enter a valid port (1-65535)") ∧
    (∀ (s : String) (n : Int), parseIntJS s = some n → (n < 1 ∨ n > 65535) →
      portValidate s = some "Please enter a valid port (1-65535)") := by
  refine ⟨by decide, by decide, by decide, by decide, ?_, ?_⟩
  · intro s h
    simp [portValidate, h]
  · intro s n h hr
    simp [portValidate, h, hr]

/-- Witness for C6 at the non-numeric input "abc". -/
theorem port_validation_range_witness :
    portValidate "abc" = some "Please enter a valid port (1-65535)" :=
  port_validation_range.2.2.2.2.1 "abc" (by decide)

/-- C9: the probed port is the first `PORT=digits` substring anywhere in
the file, with no range validation: `SUPPORT=8080` satisfies the match
and yields 8080, `PORT=999999` yields 999999 (outside 1–65535), and of
several `PORT=` entries the first wins. -/
theorem port_probe_regex_quirks :
    getPort "/h" [(envPath "/h", .content "SUPPORT=8080\n")] = 8080 ∧
    getPort "/h" [(envPath "/h", .content "DATABASE_URL=\x22x\x22\nPORT=999999\n")] = 999999 ∧
    999999 > 65535 ∧
    getPort "/h" [(envPath "/h", .content "A=1\nPORT=123\nPORT=456\n")] = 123 := by
  refine ⟨by decide, by decide, by decide, by decide⟩

/-- C10: every management command outside the help tokens, run without a
detected installation, prints the not-installed error and exits 1 before
performing any action. -/
theorem manage_requires_install (home : String) (env : MEnv) (st : MState) (command : String)
    (hcmd : command ∉ helpTokens) (hinst : isInstalled home st.fs = false) :
    runManage home env st command = ⟨1, [], [.notInstalled], st⟩ := by
  unfold runManage
  rw [if_neg hcmd]
  simp [hinst]

/-- Witness for C10: `status` with nothing on disk. -/
theorem manage_requires_install_witness :
    runManage "/h" envA ⟨[], false⟩ "status" = ⟨1, [], [.notInstalled], ⟨[], false⟩⟩ :=
  manage_requires_install "/h" envA ⟨[], false⟩ "status" (by decide) rfl

/-- C2: database provisioning checks for the target database by name and
creates it only if absent, using the privileged path exactly when the
normal path fails; a successful run performs at most one creation and a
second run against the resulting cluster performs none. -/
theorem setup_database_idempotent (st st1 : DbState) (effs1 : List Eff)
    (h : setupDatabase st = some (st1, effs1)) :
    countCreates effs1 ≤ 1 ∧
    setupDatabase st1 = some (st1, []) ∧
    (dbName ∈ st.dbs → st1 = st ∧ effs1 = []) ∧
    (dbName ∉ st.dbs → st.createdbOk = true → effs1 = [.createDb false]) ∧
    (dbName ∉ st.dbs → st.createdbOk = false → st.superOk = true →
      effs1 = [.createDb true]) := by
  by_cases hm : dbName ∈ st.dbs
  · simp only [setupDatabase, if_pos hm, Option.some_inj, Prod.mk.injEq] at h
    obtain ⟨rfl, rfl⟩ := h
    exact ⟨by simp [countCreates], by simp [setupDatabase, hm], fun _ => ⟨rfl, rfl⟩,
      fun hn => absurd hm hn, fun hn => absurd hm hn⟩
  · by_cases hc : st.createdbOk
    · simp only [setupDatabase, if_neg hm, if_pos hc, Option.some_inj, Prod.mk.injEq] at h
      obtain ⟨rfl, rfl⟩ := h
      refine ⟨by simp [countCreates], ?_, fun hmem => absurd hmem hm, fun _ _ => rfl,
        fun _ hcf _ => by rw [hc] at hcf; cases hcf⟩
      simp [setupDatabase]
    · by_cases hs : st.superOk
      · simp only [setupDatabase, if_neg hm, if_neg hc, if_pos hs, Option.some_inj,
          Prod.mk.injEq] at h
        obtain ⟨rfl, rfl⟩ := h
        refine ⟨by simp [countCreates], ?_, fun hmem => absurd hmem hm,
          fun _ hct => by simp [hct] at hc, fun _ _ _ => rfl⟩
        simp [setupDatabase]
      · simp [setupDatabase, hm, hc, hs] at h

/-- Witness for C2: an empty cluster with the normal path permitted. -/
theorem setup_database_idempotent_witness :
    setupDatabase ⟨[dbName], true, true⟩ = some (⟨[dbName], true, true⟩, []) ∧
    countCreates [Eff.createDb false] ≤ 1 :=
  ⟨(setup_database_idempotent ⟨[], true, true⟩ ⟨[dbName], true, true⟩ [Eff.createDb false]
      (by decide)).2.1,
   (setup_database_idempotent ⟨[], true, true⟩ ⟨[dbName], true, true⟩ [Eff.createDb false]
      (by decide)).1⟩

/-- C3: when the liveness probe reports running, `start` returns success
with no spawn and no service-manager call; when it reports not running,
`stop` returns success with no stop action; and when a started process
answers the probe, a second `start` right after a first leaves the state
identical and performs no effect. -/
theorem start_stop_idempotent (home : String) (env : MEnv) (st : MState) :
    (st.running = true → runStart home env st = ⟨0, [], [], st⟩) ∧
    (st.running = false → runStop home env st = ⟨0, [], [], st⟩) ∧
    (env.startBrings = true →
      runStart home env (runStart home env st).state =
        ⟨0, [], [], (runStart home env st).state⟩) := by
  refine ⟨?_, ?_, ?_⟩
  · intro h
    simp [runStart, h]
  · intro h
    simp [runStop, h]
  · intro hb
    by_cases hr : st.running
    · simp [runStart, hr]
    · simp [runStart, hr, hb]

/-- Witness for C3 at concrete states on each side of the probe. -/
theorem start_stop_idempotent_witness :
    runStart "/h" envA ⟨[], true⟩ = ⟨0, [], [], ⟨[], true⟩⟩ ∧
    runStop "/h" envA ⟨[], false⟩ = ⟨0, [], [], ⟨[], false⟩⟩ ∧
    runStart "/h" envA (runStart "/h" envA ⟨[], false⟩).state =
      ⟨0, [], [], (runStart "/h" envA ⟨[], false⟩).state⟩ :=
  ⟨(start_stop_idempotent "/h" envA ⟨[], true⟩).1 rfl,
   (start_stop_idempotent "/h" envA ⟨[], false⟩).2.1 rfl,
   (start_stop_idempotent "/h" envA ⟨[], false⟩).2.2 rfl⟩

/-- C8 counterexample: with no installation on disk, the unknown token
`bogus` exits 1 but prints the not-installed error instead of usage, so
"prints usage and exits 1" fails as stated. -/
theorem unknown_command_counterexample :
    cliDispatch (some "bogus") = .manage "bogus" ∧
    (runManage "/h" envA ⟨[], false⟩ "bogus").exit = 1 ∧
    Msg.usage ∉ (runManage "/h" envA ⟨[], false⟩ "bogus").msgs := by
  refine ⟨by decide, by decide, by decide⟩

/-- C8 (amended): absence of a positional argument (or a falsy empty
one) and the token `install` run the installer; any other token
dispatches to the management command set; a token matching no management
command exits 1, printing usage when an installation is detected and the
not-installed error otherwise. -/
theorem cli_dispatch_amended (home : String) (env : MEnv) (st : MState) (command : String) :
    cliDispatch none = .installer ∧
    cliDispatch (some "install") = .installer ∧
    (command ≠ "install" → command ≠ "" → cliDispatch (some command) = .manage command) ∧
    (command ∉ helpTokens → command ∉ manageCmds →
      (runManage home env st command).exit = 1 ∧
      (runManage home env st command).effs = [] ∧
      (isInstalled home st.fs = true → (runManage home env st command).msgs = [.usage]) ∧
      (isInstalled home st.fs = false →
        (runManage home env st command).msgs = [.notInstalled])) := by
  refine ⟨rfl, by decide, ?_, ?_⟩
  · intro h1 h2
    simp [cliDispatch, h1, h2]
  · intro hh hm
    simp only [manageCmds, List.mem_cons, List.not_mem_nil, or_false, not_or] at hm
    obtain ⟨m1, m2, m3, m4, m5, m6, m7⟩ := hm
    have hrun : runManage home env st command =
        if isInstalled home st.fs then ⟨1, [], [.usage], st⟩
        else ⟨1, [], [.notInstalled], st⟩ := by
      unfold runManage
      rw [if_neg hh]
      by_cases hi : isInstalled home st.fs <;> simp [hi, m1, m2, m3, m4, m5, m6, m7]
    by_cases hi : isInstalled home st.fs <;> simp [hrun, hi]

/-- Witness for C8 at the token `bogus` against an installed state. -/
theorem cli_dispatch_amended_witness :
    cliDispatch (some "bogus") = Dispatch.manage "bogus" ∧
    (runManage "/h" envA ⟨fsI, false⟩ "bogus").exit = 1 ∧
    (runManage "/h" envA ⟨fsI, false⟩ "bogus").msgs = [.usage] :=
  ⟨(cli_dispatch_amended "/h" envA ⟨fsI, false⟩ "bogus").2.2.1 (by decide) (by decide),
   ((cli_dispatch_amended "/h" envA ⟨fsI, false⟩ "bogus").2.2.2 (by decide) (by decide)).1,
   ((cli_dispatch_amended "/h" envA ⟨fsI, false⟩ "bogus").2.2.2 (by decide) (by decide)).2.2.1
     (by decide)⟩

/-- The joined install path is never the empty string, so only the
exists check of the directory validator can fire on it. -/
lemma installDirPath_ne_empty (home : String) : installDirPath home ≠ "" := by
  intro h
  have hlen : (installDirPath home).length = 0 := by rw [h]; rfl
  rw [installDirPath, joinPath, String.length_append, String.length_append] at hlen
  have h14 : ("openclaw-board" : String).length = 14 := rfl
  omega

/-- C7: a detected installation's directory exists, so the fresh-install
directory prompt rejects it with a validation failure, while the update
flow accepts the same path and operates (pulls) inside it, succeeding
when the external steps succeed. -/
theorem existing_dir_validation_vs_update (home : String) (fs : Fs) (env : IEnv)
    (ex : ExistingInstall) (hdet : detectExistingInstall home fs = some ex)
    (h1 : env.gitPullOk = true) (h2 : env.npmInstallOk = true)
    (h3 : env.prismaGenOk = true) (h4 : env.prismaPushOk = true) :
    installDirValidate fs ex.installDir = some "Directory already exists" ∧
    (runUpdate env ex).exit = 0 ∧
    Eff.gitPull ex.installDir ∈ (runUpdate env ex).effs := by
  unfold detectExistingInstall at hdet
  split at hdet
  case isFalse => cases hdet
  case isTrue hcond =>
    rw [Option.some_inj] at hdet
    subst hdet
    rw [Bool.and_eq_true] at hcond
    refine ⟨?_, ?_, ?_⟩
    · simp [installDirValidate, installDirPath_ne_empty home, hcond.1]
    · simp [runUpdate, h1, h2, h3, h4]
    · simp [runUpdate, h1, h2, h3, h4]

/-- Witness for C7 on the sample installed filesystem. -/
theorem existing_dir_validation_vs_update_witness :
    installDirValidate fsI exI.installDir = some "Directory already exists" ∧
    (runUpdate envI exI).exit = 0 ∧
    Eff.gitPull exI.installDir ∈ (runUpdate envI exI).effs :=
  existing_dir_validation_vs_update "/h" fsI envI exI (by decide) rfl rfl rfl rfl

/-- C4: with an existing installation and Update selected, the run pulls
into the existing directory, reinstalls dependencies, regenerates and
applies migrations, exits 0, performs no service-manager call, spawns
nothing, writes no file (in particular not the service-registration
plist), and prints the manual-restart hint exactly when a launch agent
is registered. -/
theorem update_transition_frame (home : String) (env : IEnv) (fs : Fs) (s : Script)
    (ex : ExistingInstall) (hdet : detectExistingInstall home fs = some ex)
    (hact : s.action = some .update)
    (h1 : env.gitPullOk = true) (h2 : env.npmInstallOk = true)
    (h3 : env.prismaGenOk = true) (h4 : env.prismaPushOk = true) :
    runInstaller home env fs s =
      ⟨0, [.gitPull ex.installDir, .npmInstall ex.installDir,
           .prismaGenerate ex.installDir, .prismaDbPush ex.installDir],
        if ex.hasLaunchAgent then [.restartHint] else [], .completed⟩ ∧
    (∀ e ∈ (runInstaller home env fs s).effs,
      touchesService home e = false ∧ isSpawn e = false ∧ ∀ p c, e ≠ .writeFile p c) ∧
    (Msg.restartHint ∈ (runInstaller home env fs s).msgs ↔ ex.hasLaunchAgent = true) := by
  have hrun : runInstaller home env fs s =
      ⟨0, [.gitPull ex.installDir, .npmInstall ex.installDir,
           .prismaGenerate ex.installDir, .prismaDbPush ex.installDir],
        if ex.hasLaunchAgent then [.restartHint] else [], .completed⟩ := by
    unfold runInstaller
    rw [hdet, hact]
    simp [runUpdate, h1, h2, h3, h4]
  refine ⟨hrun, ?_, ?_⟩
  · intro e he
    rw [hrun] at he
    simp only [List.mem_cons, List.not_mem_nil, or_false] at he
    rcases he with rfl | rfl | rfl | rfl <;>
      exact ⟨rfl, rfl, fun p c h => by cases h⟩
  · rw [hrun]
    by_cases hl : ex.hasLaunchAgent <;> simp [hl]

/-- Witness for C4 on the sample installed filesystem. -/
theorem update_transition_frame_witness :
    runInstaller "/h" envI fsI updateScript =
      ⟨0, [.gitPull exI.installDir, .npmInstall exI.installDir,
           .prismaGenerate exI.installDir, .prismaDbPush exI.installDir],
        if exI.hasLaunchAgent then [.restartHint] else [], .completed⟩ :=
  (update_transition_frame "/h" envI fsI updateScript exI (by decide) rfl
    rfl rfl rfl rfl).1

/-- A run that ended by user cancellation carries exit code 0. -/
def cancelOk (r : RunResult) : Prop :=
  r.outcome = .cancelled → r.exit = 0

/-- Every early exit of the PostgreSQL step that is a cancellation
exits 0. -/
lemma pgStep_error_cancelOk (env : IEnv) (s : Script) (r : RunResult)
    (h : pgStep env s = .error r) : cancelOk r := by
  unfold pgStep at h
  (repeat' split at h) <;> simp_all [cancelOk] <;> (subst h; simp)

/-- Early exits of `cloneAndSetup` are step failures, never
cancellations. -/
lemma cloneAndSetup_error_not_cancel (env : IEnv) (cfg : InstallerConfig) (r : RunResult)
    (h : cloneAndSetup env cfg = .error r) : r.outcome ≠ .cancelled := by
  unfold cloneAndSetup at h
  (repeat' split at h) <;> simp_all <;> (subst h; simp)

/-- Early exits of `setupLaunchAgent` are step failures, never
cancellations. -/
lemma setupLaunchAgent_error_not_cancel (home : String) (env : IEnv) (cfg : InstallerConfig)
    (r : RunResult) (h : setupLaunchAgent home env cfg = .error r) :
    r.outcome ≠ .cancelled := by
  unfold setupLaunchAgent at h
  (repeat' split at h) <;> simp_all
  subst h; simp

/-- `runUpdate` never ends in a cancellation. -/
lemma runUpdate_not_cancel (env : IEnv) (ex : ExistingInstall) :
    (runUpdate env ex).outcome ≠ .cancelled := by
  unfold runUpdate
  (repeat' split) <;> simp

/-- Every cancellation exit of the fresh flow carries exit code 0. -/
lemma freshFlow_cancelOk (home : String) (env : IEnv) (s : Script) :
    cancelOk (freshFlow home env s) := by
  unfold freshFlow
  split
  · intro hc
    exact absurd hc (by simp)
  · split
    · rename_i r heq
      exact pgStep_error_cancelOk env s r heq
    · rename_i pgE heq
      split
      · exact fun _ => rfl
      · split
        · exact fun _ => rfl
        · split
          · exact fun _ => rfl
          · split
            · exact fun _ => rfl
            · exact fun _ => rfl
            · dsimp only
              split
              · rename_i r heq2
                intro hc
                simp only [cancelOk] at hc ⊢
                exact absurd hc (cloneAndSetup_error_not_cancel env _ r heq2)
              · rename_i csE heq2
                split
                · split
                  · rename_i r heq3
                    intro hc
                    exact absurd hc (setupLaunchAgent_error_not_cancel home env _ r heq3)
                  · intro hc
                    exact absurd hc (by simp)
                · intro hc
                  exact absurd hc (by simp)

/-- Every cancellation exit of the installer carries exit code 0. -/
lemma runInstaller_cancelOk (home : String) (env : IEnv) (fs : Fs) (s : Script) :
    cancelOk (runInstaller home env fs s) := by
  unfold runInstaller
  split
  · exact freshFlow_cancelOk home env s
  · rename_i ex heq
    split
    · exact fun _ => rfl
    · exact fun _ => rfl
    · intro hc
      exact absurd hc (runUpdate_not_cancel env ex)
    · split
      · exact fun _ => rfl
      · exact fun _ => rfl
      · intro hc
        simp only [RunResult.outcome] at hc
        exact (freshFlow_cancelOk home env s) hc

/-- C5 counterexample: with a prior install present, choosing Fresh
Install, confirming the deletion, and then cancelling at the directory
prompt is a user cancellation that exits 0 — but the existing
installation directory has already been recursively deleted, so "no side
effects" fails as stated. -/
theorem cancellation_side_effect_counterexample :
    (runInstaller "/h" envI fsI cancelAfterRmScript).outcome = .cancelled ∧
    (runInstaller "/h" envI fsI cancelAfterRmScript).exit = 0 ∧
    (runInstaller "/h" envI fsI cancelAfterRmScript).effs = [.rmRf (installDirPath "/h")] ∧
    (runInstaller "/h" envI fsI cancelAfterRmScript).effs ≠ [] := by
  refine ⟨by decide, by decide, by decide, by decide⟩

/-- C5 (amended): every user cancellation terminates the process with
exit code 0, with no side effects beyond those of steps completed before
the cancellation point; in particular, when a prior install is present
and the user selects FreshReinstall but declines the destructive
confirmation, no filesystem mutation occurs and the process exits 0. -/
theorem cancellation_exits_zero (home : String) (env : IEnv) (fs : Fs) (s : Script) :
    ((runInstaller home env fs s).outcome = .cancelled →
      (runInstaller home env fs s).exit = 0) ∧
    (∀ ex, detectExistingInstall home fs = some ex → s.action = some .fresh →
      s.confirmDelete = some false →
      runInstaller home env fs s = ⟨0, [], [.cancelled], .cancelled⟩) := by
  refine ⟨runInstaller_cancelOk home env fs s, ?_⟩
  intro ex hdet hact hconf
  unfold runInstaller
  rw [hdet, hact, hconf]

/-- Witness for C5 on the sample installed filesystem, declining the
destructive confirmation. -/
theorem cancellation_exits_zero_witness :
    runInstaller "/h" envI fsI declineDeleteScript = ⟨0, [], [.cancelled], .cancelled⟩ :=
  (cancellation_exits_zero "/h" envI fsI declineDeleteScript).2 exI (by decide) rfl rfl

end OpenclawBoard
